import Mathlib

/-!
Verification of the derivative-taylor-finder expression library.

The Rust sources (src/function.rs, src/taylor.rs) define an immutable
expression tree `Function` over f64, with simplifying smart constructors
(the `Add`/`Sub`/`Mul`/`Div` operator impls and `pow`/`powf`/`exp`/`ln`/
`sin`/`cos`/`tan`), a recursive evaluator `eval`, a symbolic
differentiator `prime`, and a Taylor-series builder `taylor` with a u64
`factorial`.

This file embeds those definitions shallowly: f64 payloads become real
numbers, `powf` becomes `Real.rpow`, and the `Rc` sharing (invisible to
structural equality and evaluation) is dropped in favour of plain value
children.  The u64 `factorial` is embedded twice: once as a plain natural
product, and once with the multiplication overflow check Rust performs in
debug builds, which models the only way `taylor` can fail.
-/

namespace DTF

/-- The expression tree from src/function.rs (`enum Function`).  The f64
payloads are modelled as real numbers; the `FunctionRef` reference-counted
indirection is dropped because Rust's derived `PartialEq` compares the
pointees structurally. -/
inductive Function where
  | Constant : ℝ → Function
  | X : Function
  | Add : Function → Function → Function
  | Subtract : Function → Function → Function
  | Multiply : Function → Function → Function
  | Divide : Function → Function → Function
  | Powi : Function → ℝ → Function
  | Powa : ℝ → Function → Function
  | Pow : Function → Function → Function
  | Exp : Function → Function
  | Ln : Function → Function
  | Sin : Function → Function
  | Cos : Function → Function
  | Tan : Function → Function

/-- Structural equality of expressions, as used by the smart constructors
(Rust `==` on the derived `PartialEq`).  Classical, since the payloads are
real numbers. -/
noncomputable instance : DecidableEq Function :=
  fun _ _ => Classical.dec _

/-- Whether a node is a bare `Constant`.  This mirrors the Rust pattern
match `Function::Constant(_)` on a node's head. -/
def Function.isConstant : Function → Bool
  | .Constant _ => true
  | _ => false

/-- src/taylor.rs `factorial`: the product of `2..=n`, as an unbounded
natural number (the value the u64 computation would produce if it never
overflowed). -/
def factorial (n : Nat) : Nat :=
  (List.range' 2 (n - 1)).foldl (· * ·) 1

/-- One u64 multiplication with Rust's debug-profile overflow check: the
product is returned when it fits in a u64, and the multiplication panics
(`none`) otherwise. -/
def checkedMul (a b : Nat) : Option Nat :=
  if a * b < 2 ^ 64 then some (a * b) else none

/-- src/taylor.rs `factorial` under u64 overflow checks: the left fold of
checked multiplications over `2..=n` that `(2..=n).product()` performs,
panicking (`none`) as soon as a partial product exceeds `u64::MAX`. -/
def factorialChecked (n : Nat) : Option Nat :=
  (List.range' 2 (n - 1)).foldl (fun acc k => acc.bind (fun a => checkedMul a k)) (some 1)

noncomputable section

/-- src/function.rs `Function::eval`: recursive numeric evaluation at a
point.  f64 arithmetic is modelled by real arithmetic and `powf` by
`Real.rpow`. -/
def Function.eval : Function → ℝ → ℝ
  | .Constant a, _ => a
  | .X, x => x
  | .Add a b, x => a.eval x + b.eval x
  | .Subtract a b, x => a.eval x - b.eval x
  | .Multiply a b, x => a.eval x * b.eval x
  | .Divide a b, x => a.eval x / b.eval x
  | .Powi a b, x => a.eval x ^ b
  | .Powa a b, x => a ^ b.eval x
  | .Pow a b, x => a.eval x ^ b.eval x
  | .Exp a, x => Real.exp (a.eval x)
  | .Ln a, x => Real.log (a.eval x)
  | .Sin a, x => Real.sin (a.eval x)
  | .Cos a, x => Real.cos (a.eval x)
  | .Tan a, x => Real.tan (a.eval x)

/-- src/function.rs `impl Add for Function`: the addition smart
constructor. -/
def Function.add (self other : Function) : Function :=
  if self = Function.Constant 0 then other
  else if other = Function.Constant 0 then self
  else
    match self, other with
    | .Constant a, .Constant b => .Constant (a + b)
    | f, g => .Add f g

/-- src/function.rs `impl Sub for Function`: the subtraction smart
constructor.  Note that, exactly as in the source, `Constant 0 - b`
returns `b` (not the negation of `b`). -/
def Function.sub (self other : Function) : Function :=
  if self = Function.Constant 0 then other
  else if other = Function.Constant 0 then self
  else
    match self, other with
    | .Constant a, .Constant b => .Constant (a - b)
    | f, g => .Subtract f g

/-- src/function.rs `impl Mul for Function`: the multiplication smart
constructor. -/
def Function.mul (self other : Function) : Function :=
  if self = Function.Constant 0 ∨ other = Function.Constant 0 then Function.Constant 0
  else if self = Function.Constant 1 then other
  else if other = Function.Constant 1 then self
  else
    match self, other with
    | .Constant a, .Constant b => .Constant (a * b)
    | f, g => .Multiply f g

/-- src/function.rs `impl Div for Function`: the division smart
constructor.  The source checks only `0 / b = 0` and folds
constant-by-constant division; there is no `a / 1 = a` rule. -/
def Function.div (self other : Function) : Function :=
  if self = Function.Constant 0 then Function.Constant 0
  else
    match self, other with
    | .Constant a, .Constant b => .Constant (a / b)
    | f, g => .Divide f g

/-- src/function.rs `Function::pow`: the power smart constructor.  The
zero-base rule is checked first, then one-base, zero-exponent and
one-exponent, then the constant fold and the `Powi`/`Powa`/`Pow`
classification. -/
def Function.pow (self other : Function) : Function :=
  if self = Function.Constant 0 then Function.Constant 0
  else if self = Function.Constant 1 then Function.Constant 1
  else if other = Function.Constant 0 then Function.Constant 1
  else if other = Function.Constant 1 then self
  else
    match self, other with
    | .Constant a, .Constant b => .Constant (a ^ b)
    | f, .Constant a => .Powi f a
    | .Constant a, f => .Powa a f
    | f, g => .Pow f g

/-- src/function.rs `Function::powf`: power with a float exponent,
delegating to `pow` on a wrapped constant. -/
def Function.powf (self : Function) (other : ℝ) : Function :=
  self.pow (Function.Constant other)

/-- src/function.rs `Function::exp`: constant folding, else an `Exp`
node. -/
def Function.exp : Function → Function
  | .Constant a => .Constant (Real.exp a)
  | f => .Exp f

/-- src/function.rs `Function::ln`: constant folding, else an `Ln`
node. -/
def Function.ln : Function → Function
  | .Constant a => .Constant (Real.log a)
  | f => .Ln f

/-- src/function.rs `Function::sin`: constant folding, else a `Sin`
node. -/
def Function.sin : Function → Function
  | .Constant a => .Constant (Real.sin a)
  | f => .Sin f

/-- src/function.rs `Function::cos`: constant folding, else a `Cos`
node. -/
def Function.cos : Function → Function
  | .Constant a => .Constant (Real.cos a)
  | f => .Cos f

/-- src/function.rs `Function::tan`: constant folding, else a `Tan`
node. -/
def Function.tan : Function → Function
  | .Constant a => .Constant (Real.tan a)
  | f => .Tan f

/-- src/function.rs `Function::prime`: the symbolic differentiator.  Each
arm builds its result through the smart constructors exactly as the Rust
operator expressions do, with Rust's left-associative `*`, `/` and `+`
precedence made explicit. -/
def Function.prime : Function → Function
  | .Constant _ => .Constant 0
  | .X => .Constant 1
  | .Add f g => f.prime.add g.prime
  | .Subtract f g => f.prime.sub g.prime
  | .Multiply f g =>
    match f, g with
    | .Constant _, .Constant _ => .Constant 0
    | .Constant a, f => (Function.Constant a).mul f.prime
    | f, .Constant a => (Function.Constant a).mul f.prime
    | f, g => (f.prime.mul g).add (f.mul g.prime)
  | .Divide f g =>
    match f, g with
    | .Constant _, .Constant _ => .Constant 0
    | .Constant a, f => (Function.Constant a).div f.prime
    | f, .Constant a => f.prime.div (Function.Constant a)
    | f, g => ((g.mul f.prime).sub (f.mul g.prime)).div (g.powf 2)
  | .Powi f a => ((Function.Constant a).mul (f.powf (a - 1))).mul f.prime
  | .Powa a f => ((Function.Powa a f).mul (Function.Constant (Real.log a))).mul f.prime
  | .Pow f g => (((f.pow g).mul g.prime).mul f.ln).add ((g.mul f.prime).div f)
  | .Exp f => f.exp.mul f.prime
  | .Ln f => f.prime.div f
  | .Sin f => f.cos.mul f.prime
  | .Cos f => ((Function.Constant (-1)).mul f.sin).mul f.prime
  | .Tan f => f.prime.div ((f.cos).powf 2)

/-- The loop body of src/taylor.rs `taylor`, recursing on the number of
remaining iterations: `n` is the current loop index, and the polynomial
and current derivative are threaded exactly as the Rust `for` loop's
mutable locals are. -/
def taylorLoop (center : ℝ) : Nat → Nat → Function → Function → Function
  | _, 0, polynomial, _ => polynomial
  | n, steps + 1, polynomial, nthDerivative =>
    let coefficient := nthDerivative.eval center / (factorial n : ℝ)
    let nthTerm := (Function.Constant coefficient).mul
      ((Function.X.sub (Function.Constant center)).powf (n : ℝ))
    taylorLoop center (n + 1) steps (polynomial.add nthTerm) nthDerivative.prime

/-- src/taylor.rs `taylor`: the accumulator starts at `Constant 0` and the
loop runs for `n` in `0..=order`.  This version uses the unbounded
`factorial`. -/
def taylor (order : Nat) (center : ℝ) (f : Function) : Function :=
  taylorLoop center 0 (order + 1) (Function.Constant 0) f

/-- The loop body of src/taylor.rs `taylor` with the u64 factorial's
overflow check made explicit: an iteration whose `factorial` call
overflows panics, aborting the whole computation (`none`). -/
def taylorLoopChecked (center : ℝ) : Nat → Nat → Function → Function → Option Function
  | _, 0, polynomial, _ => some polynomial
  | n, steps + 1, polynomial, nthDerivative =>
    match factorialChecked n with
    | none => none
    | some k =>
      let coefficient := nthDerivative.eval center / (k : ℝ)
      let nthTerm := (Function.Constant coefficient).mul
        ((Function.X.sub (Function.Constant center)).powf (n : ℝ))
      taylorLoopChecked center (n + 1) steps (polynomial.add nthTerm) nthDerivative.prime

/-- src/taylor.rs `taylor` under u64 overflow checks: `none` models a
panic inside `factorial`. -/
def taylorChecked (order : Nat) (center : ℝ) (f : Function) : Option Function :=
  taylorLoopChecked center 0 (order + 1) (Function.Constant 0) f

/-- src/function.rs `float_binop!` for `Add`, literal on the left:
`f64 + Function` wraps the literal and delegates to the `Add` smart
constructor. -/
def floatAddLeft (c : ℝ) (other : Function) : Function :=
  (Function.Constant c).add other

/-- src/function.rs `float_binop!` for `Add`, literal on the right. -/
def floatAddRight (self : Function) (c : ℝ) : Function :=
  self.add (Function.Constant c)

/-- src/function.rs `float_binop!` for `Sub`, literal on the left. -/
def floatSubLeft (c : ℝ) (other : Function) : Function :=
  (Function.Constant c).sub other

/-- src/function.rs `float_binop!` for `Sub`, literal on the right. -/
def floatSubRight (self : Function) (c : ℝ) : Function :=
  self.sub (Function.Constant c)

/-- src/function.rs `float_binop!` for `Mul`, literal on the left. -/
def floatMulLeft (c : ℝ) (other : Function) : Function :=
  (Function.Constant c).mul other

/-- src/function.rs `float_binop!` for `Mul`, literal on the right. -/
def floatMulRight (self : Function) (c : ℝ) : Function :=
  self.mul (Function.Constant c)

/-- src/function.rs `float_binop!` for `Div`, literal on the left. -/
def floatDivLeft (c : ℝ) (other : Function) : Function :=
  (Function.Constant c).div other

/-- src/function.rs `float_binop!` for `Div`, literal on the right. -/
def floatDivRight (self : Function) (c : ℝ) : Function :=
  self.div (Function.Constant c)

end

/-! ## Reduction lemmas for the smart constructors -/

/-- A node that is not a bare `Constant` differs from every `Constant`. -/
lemma ne_constant (f : Function) (h : f.isConstant = false) (r : ℝ) :
    f ≠ Function.Constant r := by
  intro heq
  subst heq
  simp [Function.isConstant] at h

/-- `Constant 0 + g = g` in the addition smart constructor. -/
lemma add_constzero_left (g : Function) : (Function.Constant 0).add g = g := by
  unfold Function.add
  rw [if_pos rfl]

/-- `b * Constant 1 = b` holds unconditionally in the multiplication smart
constructor: the zero and one short-circuits cover the constant cases
before the fold arm is reached. -/
lemma mul_one_right (b : Function) : b.mul (Function.Constant 1) = b := by
  unfold Function.mul
  by_cases h0 : b = Function.Constant 0
  · rw [if_pos (Or.inl h0), h0]
  · rw [if_neg (not_or.mpr ⟨h0, by simp⟩)]
    by_cases h1 : b = Function.Constant 1
    · rw [if_pos h1, h1]
    · rw [if_neg h1, if_pos rfl]

/-- Evaluating `Constant r * Constant 1` gives `r` back in every branch of
the multiplication smart constructor. -/
lemma mul_const_one_eval (r x : ℝ) :
    ((Function.Constant r).mul (Function.Constant 1)).eval x = r := by
  rw [mul_one_right]
  rfl

/-- A power with exponent `Constant 0` collapses to `Constant 1` whenever
the base is not the constant `0` or `1`. -/
lemma powf_zero (b : Function) (h0 : b ≠ Function.Constant 0)
    (h1 : b ≠ Function.Constant 1) : b.powf 0 = Function.Constant 1 := by
  unfold Function.powf Function.pow
  rw [if_neg h0, if_neg h1, if_pos rfl]

/-- `X - Constant c` is never a bare constant: it is either `X` (when
`c = 0`) or a `Subtract` node. -/
lemma sub_x_const_ne (c r : ℝ) :
    Function.X.sub (Function.Constant c) ≠ Function.Constant r := by
  unfold Function.sub
  rw [if_neg (by simp)]
  by_cases hc : Function.Constant c = Function.Constant (0 : ℝ)
  · rw [if_pos hc]
    simp
  · rw [if_neg hc]
    simp

/-! ## Claim theorems -/

/-- Claim C5: the subtraction smart constructor satisfies `a - Constant 0 = a`
for every expression `a`, and `Constant 0 - b = b` (so `b` itself, not its
negation) for every expression `b`. -/
theorem c5_sub_zero_identities (a b : Function) :
    a.sub (Function.Constant 0) = a ∧ (Function.Constant 0).sub b = b := by
  constructor
  · unfold Function.sub
    by_cases h : a = Function.Constant 0
    · rw [if_pos h, h]
    · rw [if_neg h, if_pos rfl]
  · unfold Function.sub
    rw [if_pos rfl]

/-- Claim C6: the order-0 Taylor polynomial of any `f` about any center
evaluates, at every point `x`, to `f` evaluated at the center. -/
theorem c6_taylor_order_zero (f : Function) (center x : ℝ) :
    (taylor 0 center f).eval x = f.eval center := by
  have hstep : taylor 0 center f
      = (Function.Constant 0).add
        ((Function.Constant (f.eval center / ((factorial 0 : ℕ) : ℝ))).mul
          ((Function.X.sub (Function.Constant center)).powf ((0 : ℕ) : ℝ))) := rfl
  rw [hstep, add_constzero_left]
  simp only [show factorial 0 = 1 from rfl, Nat.cast_one, div_one, Nat.cast_zero]
  rw [powf_zero _ (sub_x_const_ne center 0) (sub_x_const_ne center 1)]
  exact mul_const_one_eval _ x

/-- Claim C8: for a non-constant expression `f`, `f + Constant 0` and
`f * Constant 1` are structurally `f` itself, and `f * Constant 0` is
structurally `Constant 0`. -/
theorem c8_identity_elimination (f : Function) (h : f.isConstant = false) :
    f.add (Function.Constant 0) = f ∧ f.mul (Function.Constant 1) = f
      ∧ f.mul (Function.Constant 0) = Function.Constant 0 := by
  have h0 : f ≠ Function.Constant 0 := ne_constant f h 0
  refine ⟨?_, mul_one_right f, ?_⟩
  · unfold Function.add
    rw [if_neg h0, if_pos rfl]
  · unfold Function.mul
    rw [if_pos (Or.inr rfl)]

/-- Witness for claim C8 at the non-constant expression `X`. -/
theorem c8_identity_elimination_witness :
    Function.X.isConstant = false ∧
      (Function.X.add (Function.Constant 0) = Function.X ∧
        Function.X.mul (Function.Constant 1) = Function.X ∧
        Function.X.mul (Function.Constant 0) = Function.Constant 0) :=
  ⟨rfl, c8_identity_elimination Function.X rfl⟩

/-- Claim C9: each float-literal operator overload equals wrapping the
literal as a `Constant` and applying the expression-expression smart
constructor, for both operand orders of all four operators. -/
theorem c9_float_overloads (f : Function) (c : ℝ) :
    floatAddLeft c f = (Function.Constant c).add f
      ∧ floatAddRight f c = f.add (Function.Constant c)
      ∧ floatSubLeft c f = (Function.Constant c).sub f
      ∧ floatSubRight f c = f.sub (Function.Constant c)
      ∧ floatMulLeft c f = (Function.Constant c).mul f
      ∧ floatMulRight f c = f.mul (Function.Constant c)
      ∧ floatDivLeft c f = (Function.Constant c).div f
      ∧ floatDivRight f c = f.div (Function.Constant c) :=
  ⟨rfl, rfl, rfl, rfl, rfl, rfl, rfl, rfl⟩

/-- Claim C10: the power smart constructor's zero-base rule wins over
constant folding: `pow (Constant 0) e = Constant 0` for every exponent
`e`, so `pow (Constant 0) (Constant 0)` evaluates to `0` everywhere, while
the evaluator's own exponentiation on a raw `Pow (Constant 0) (Constant 0)`
node gives `1` (so the constructor is not evaluation-preserving there). -/
theorem c10_pow_zero_base (e : Function) (x : ℝ) :
    Function.pow (Function.Constant 0) e = Function.Constant 0
      ∧ (Function.pow (Function.Constant 0) (Function.Constant 0)).eval x = 0
      ∧ (Function.Pow (Function.Constant 0) (Function.Constant 0)).eval x = 1 := by
  refine ⟨?_, ?_, ?_⟩
  · unfold Function.pow
    rw [if_pos rfl]
  · unfold Function.pow
    rw [if_pos rfl]
    rfl
  · show (0 : ℝ) ^ (0 : ℝ) = 1
    exact Real.rpow_zero 0

/-- Claim C4 counterexample: dividing the non-constant expression `X` by
`Constant 1` does not return `X`; the division smart constructor has no
`a / 1 = a` rule and builds a `Divide` node with denominator `1`. -/
theorem c4_counterexample :
    Function.X.div (Function.Constant 1) = Function.Divide Function.X (Function.Constant 1)
      ∧ Function.Divide Function.X (Function.Constant 1) ≠ Function.X := by
  constructor
  · unfold Function.div
    rw [if_neg (by simp)]
  · simp

/-- Claim C4 amended: the division smart constructor applies no
`a / 1 = a` identity.  For a non-constant `a`, dividing by `Constant 1`
returns the generic `Divide a (Constant 1)` node; only for a bare
constant does `a / 1` come back as `a`, via constant folding. -/
theorem c4_div_one_amended (a : Function) :
    (a.isConstant = false →
        a.div (Function.Constant 1) = Function.Divide a (Function.Constant 1))
      ∧ ∀ c : ℝ, (Function.Constant c).div (Function.Constant 1) = Function.Constant c := by
  constructor
  · intro h
    cases a
    case Constant c => simp [Function.isConstant] at h
    all_goals (unfold Function.div; rw [if_neg (by simp)])
  · intro c
    unfold Function.div
    by_cases hc : c = 0
    · rw [if_pos (by rw [hc]), hc]
    · rw [if_neg (by simp [hc])]
      show Function.Constant (c / 1) = Function.Constant c
      rw [div_one]

/-- Witness for the amended claim C4 at the non-constant expression `X`. -/
theorem c4_div_one_amended_witness :
    Function.X.isConstant = false ∧
      Function.X.div (Function.Constant 1)
        = Function.Divide Function.X (Function.Constant 1) :=
  ⟨rfl, (c4_div_one_amended Function.X).1 rfl⟩

/-- `X ^ X` is a generic `Pow` node: no rule of the power smart
constructor fires. -/
lemma pow_x_x : Function.X.pow Function.X = Function.Pow Function.X Function.X := by
  unfold Function.pow
  rw [if_neg (by simp), if_neg (by simp), if_neg (by simp), if_neg (by simp)]

/-- Multiplying the generic power `X ^ X` by `ln X` builds a generic
`Multiply` node. -/
lemma mul_pow_ln :
    (Function.Pow Function.X Function.X).mul (Function.Ln Function.X)
      = Function.Multiply (Function.Pow Function.X Function.X) (Function.Ln Function.X) := by
  unfold Function.mul
  rw [if_neg (not_or.mpr ⟨by simp, by simp⟩), if_neg (by simp), if_neg (by simp)]

/-- `X / X` builds a generic `Divide` node. -/
lemma div_x_x : Function.X.div Function.X = Function.Divide Function.X Function.X := by
  unfold Function.div
  rw [if_neg (by simp)]

/-- Adding the two non-constant halves of the `Pow` derivative builds a
generic `Add` node. -/
lemma add_mul_div :
    (Function.Multiply (Function.Pow Function.X Function.X) (Function.Ln Function.X)).add
        (Function.Divide Function.X Function.X)
      = Function.Add
          (Function.Multiply (Function.Pow Function.X Function.X) (Function.Ln Function.X))
          (Function.Divide Function.X Function.X) := by
  unfold Function.add
  rw [if_neg (by simp), if_neg (by simp)]

/-- The differentiator applied to `Pow X X`: because the `f ^ g` factor is
only multiplied into the `D(g) * ln f` summand, the result is
`(X ^ X) * ln X + X / X`. -/
lemma prime_pow_x_x :
    Function.prime (Function.Pow Function.X Function.X)
      = Function.Add
          (Function.Multiply (Function.Pow Function.X Function.X) (Function.Ln Function.X))
          (Function.Divide Function.X Function.X) := by
  show (((Function.X.pow Function.X).mul (Function.Constant 1)).mul Function.X.ln).add
      ((Function.X.mul (Function.Constant 1)).div Function.X) = _
  rw [pow_x_x, mul_one_right, show Function.X.ln = Function.Ln Function.X from rfl,
    mul_pow_ln, mul_one_right, div_x_x, add_mul_div]

/-- Claim C1: for `Pow(f, g)` with `f = g = X`, the code's derivative is
`(X ^ X) * ln X + X / X`, which evaluates at `x = 2` to
`4 * ln 2 + 1`, whereas the claimed rule `f^g * (D(g)*ln(f) + g*D(f)/f)`
evaluates there to `4 * ln 2 + 4`: the `f^g` factor fails to multiply the
`g*D(f)/f` term, so the two sides differ where both are defined. -/
theorem c1_pow_rule_bug :
    Function.prime (Function.Pow Function.X Function.X)
        = Function.Add
            (Function.Multiply (Function.Pow Function.X Function.X) (Function.Ln Function.X))
            (Function.Divide Function.X Function.X)
      ∧ (Function.prime (Function.Pow Function.X Function.X)).eval 2 = 4 * Real.log 2 + 1
      ∧ (Function.Pow Function.X Function.X).eval 2
          * ((Function.prime Function.X).eval 2 * Real.log (Function.X.eval 2)
              + Function.X.eval 2 * (Function.prime Function.X).eval 2 / Function.X.eval 2)
          = 4 * Real.log 2 + 4
      ∧ (4 * Real.log 2 + 1 : ℝ) ≠ 4 * Real.log 2 + 4 := by
  have hrpow : (2 : ℝ) ^ (2 : ℝ) = 4 := by
    rw [show (2 : ℝ) = ((2 : ℕ) : ℝ) by norm_num, Real.rpow_natCast]
    norm_num
  refine ⟨prime_pow_x_x, ?_, ?_, by intro hcontra; linarith⟩
  · rw [prime_pow_x_x]
    show (2 : ℝ) ^ (2 : ℝ) * Real.log 2 + 2 / 2 = 4 * Real.log 2 + 1
    rw [hrpow]
    norm_num
  · show (2 : ℝ) ^ (2 : ℝ) * ((1 : ℝ) * Real.log 2 + 2 * 1 / 2) = 4 * Real.log 2 + 4
    rw [hrpow]
    ring

/-- The differentiator applied to `Divide (Constant 2) X`: the
constant-numerator arm divides the constant by the derivative of the
denominator, yielding `Constant 2 / Constant 1`, which folds to
`Constant 2`. -/
lemma prime_divide_const_x :
    Function.prime (Function.Divide (Function.Constant 2) Function.X)
      = Function.Constant 2 := by
  show (Function.Constant (2 : ℝ)).div (Function.Constant 1) = _
  unfold Function.div
  rw [if_neg (by simp)]
  show Function.Constant ((2 : ℝ) / 1) = Function.Constant 2
  norm_num

/-- Claim C2: for `Divide(f, g)` with `f = Constant 2` a constant
numerator and `g = X` non-constant, the code's derivative is the constant
`2` (it computes `c / D(g)`), while the quotient rule
`(g*D(f) - f*D(g)) / g^2` evaluates at `x = 1` to `-2`: the special case
is not mathematically equivalent to the quotient rule. -/
theorem c2_divide_rule_bug :
    Function.prime (Function.Divide (Function.Constant 2) Function.X) = Function.Constant 2
      ∧ (Function.prime (Function.Divide (Function.Constant 2) Function.X)).eval 1 = 2
      ∧ (Function.X.eval 1 * (Function.prime (Function.Constant 2)).eval 1
          - (Function.Constant 2).eval 1 * (Function.prime Function.X).eval 1)
            / (Function.X.eval 1 * Function.X.eval 1)
          = -2
      ∧ (2 : ℝ) ≠ -2 := by
  refine ⟨prime_divide_const_x, ?_, ?_, by norm_num⟩
  · rw [prime_divide_const_x]
    rfl
  · show ((1 : ℝ) * 0 - 2 * 1) / (1 * 1) = -2
    norm_num

/-- If some loop index hit by the remaining iterations has an overflowing
factorial, the checked Taylor loop panics. -/
lemma taylorLoopChecked_none (center : ℝ) :
    ∀ (steps n : Nat) (poly nth : Function),
      (∃ j, j < steps ∧ factorialChecked (n + j) = none) →
        taylorLoopChecked center n steps poly nth = none := by
  intro steps
  induction steps with
  | zero =>
    rintro n poly nth ⟨j, hj, -⟩
    exact absurd hj (Nat.not_lt_zero j)
  | succ s ih =>
    rintro n poly nth ⟨j, hj, hnone⟩
    rw [taylorLoopChecked]
    split
    · rfl
    · rename_i k hfc
      have hj1 : 1 ≤ j := by
        rcases Nat.eq_zero_or_pos j with rfl | hpos
        · rw [Nat.add_zero] at hnone
          rw [hnone] at hfc
          exact absurd hfc (by simp)
        · exact hpos
      refine ih (n + 1) _ _ ⟨j - 1, by omega, ?_⟩
      rw [show n + 1 + (j - 1) = n + j from by omega]
      exact hnone

/-- If no loop index hit by the remaining iterations has an overflowing
factorial, the checked Taylor loop returns normally. -/
lemma taylorLoopChecked_some (center : ℝ) :
    ∀ (steps n : Nat) (poly nth : Function),
      (∀ j, j < steps → factorialChecked (n + j) ≠ none) →
        taylorLoopChecked center n steps poly nth ≠ none := by
  intro steps
  induction steps with
  | zero =>
    intro n poly nth _ h
    rw [taylorLoopChecked] at h
    exact Option.noConfusion h
  | succ s ih =>
    intro n poly nth hall h
    rw [taylorLoopChecked] at h
    split at h
    · rename_i hfc
      exact hall 0 (Nat.succ_pos s) (by rwa [Nat.add_zero])
    · rename_i k hfc
      refine ih (n + 1) _ _ (fun j hj => ?_) h
      have h2 := hall (j + 1) (by omega)
      rwa [show n + (j + 1) = n + 1 + j from by omega] at h2

/-- Claim C3 counterexample: at `order = 21` the Taylor builder panics,
because `factorial 21` overflows a u64 (`21!` exceeds `2^64 - 1`), so
`taylor_series` does not return normally for every representable order. -/
theorem c3_counterexample :
    taylorChecked 21 0 (Function.Constant 0) = none :=
  taylorLoopChecked_none 0 22 0 (Function.Constant 0) (Function.Constant 0)
    ⟨21, by omega, by decide⟩

/-- Claim C3 amended: the Taylor builder returns normally exactly up to
order 20.  For `order ≤ 20` every factorial in the loop fits in a u64 and
no iteration fails; for `order ≥ 21` the u64 factorial of iteration 21
overflows and the computation panics under Rust's overflow checks. -/
theorem c3_taylor_overflow_amended (order : Nat) (center : ℝ) (f : Function) :
    (order ≤ 20 → taylorChecked order center f ≠ none)
      ∧ (21 ≤ order → taylorChecked order center f = none) := by
  constructor
  · intro h
    have hfact : ∀ j, j ≤ 20 → factorialChecked j ≠ none := by decide
    refine taylorLoopChecked_some center (order + 1) 0 _ _ (fun j hj => ?_)
    rw [Nat.zero_add]
    exact hfact j (by omega)
  · intro h
    exact taylorLoopChecked_none center (order + 1) 0 _ _ ⟨21, by omega, by decide⟩

/-- Witness for the amended claim C3 at orders 20 and 21. -/
theorem c3_taylor_overflow_witness :
    taylorChecked 20 0 (Function.Constant 0) ≠ none
      ∧ taylorChecked 21 0 (Function.Constant 0) = none :=
  ⟨(c3_taylor_overflow_amended 20 0 (Function.Constant 0)).1 (by norm_num),
    (c3_taylor_overflow_amended 21 0 (Function.Constant 0)).2 (by norm_num)⟩

end DTF
